import Mathlib

/-!
Shallow embedding of the window-lifecycle coordinator in
`crates/bevy_window/src/system.rs`:

* `close_when_requested` — event loop over `WindowCloseRequested` plus the
  `retain` pass over the `Local<HashSet<Entity>> waiting_to_close` pending set;
* `exit_on_all_closed` / `exit_on_primary_closed` — the two exit evaluators;
* `close_on_esc` — the key-triggered close action;
* `fixup_window_surface` — the token provisioner.

Entities are naturals; component lookups (`Query::get`) are functions
`Entity → Option _`; deferred `Commands` (despawn, insert) are modelled as
lists of commands produced by each system, applied afterwards, matching the
"mutations are queued and invisible within the tick" contract.  The
`HashSet` pending set is a duplicate-free list; insertion order is the list
order (iteration order of the real set is unspecified and none of the
systems depends on it).
-/

namespace BevyWindow

/-- Entity handles are opaque; modelled as naturals. -/
abbrev Entity := Nat

/-- Modelled from the spec: the `SurfaceToken` component (`ReleaseSafetyToken`)
is declared outside `src/`; the only capability this core queries is
`is_safe_to_close_window() -> bool`, so the token is modelled as that
boolean answer. -/
structure SurfaceToken where
  safe_to_close : Bool
deriving DecidableEq, Repr

/-- The queried capability of a token. -/
def SurfaceToken.is_safe_to_close_window (t : SurfaceToken) : Bool :=
  t.safe_to_close

/-- Modelled from the spec: the "newly constructed default token" attached by
the provisioner (`SurfaceToken::default()`); a fresh surface has not yet been
released, so it is not yet safe to close. -/
def SurfaceToken.mkDefault : SurfaceToken :=
  { safe_to_close := false }

/-- The `Window` component; `focused` is the only field read by this core. -/
structure Window where
  focused : Bool
deriving DecidableEq, Repr

/-- State threaded through `close_when_requested`: the despawn commands issued
so far (in order) and the `waiting_to_close` pending set. -/
structure CloseState where
  despawns : List Entity
  waiting : List Entity
deriving DecidableEq, Repr

/-- `HashSet::insert`: add `e` unless already present (duplicate-free). -/
def hsInsert (s : List Entity) (e : Entity) : List Entity :=
  if e ∈ s then s else s ++ [e]

/-- One iteration of the event loop of `close_when_requested`:
`if let Ok(token) = tokens.get(event.window) { if safe { despawn } else { waiting.insert } }`. -/
def processEvent (tokens : Entity → Option SurfaceToken) (st : CloseState)
    (ev : Entity) : CloseState :=
  match tokens ev with
  | some token =>
      if token.is_safe_to_close_window then
        { st with despawns := st.despawns ++ [ev] }
      else
        { st with waiting := hsInsert st.waiting ev }
  | none => st

/-- The full `for event in closed.read()` loop. -/
def processEvents (tokens : Entity → Option SurfaceToken) (st : CloseState)
    (events : List Entity) : CloseState :=
  events.foldl (processEvent tokens) st

/-- The `waiting_to_close.retain(...)` pass: returns (despawn commands issued,
entities kept).  Per element: token found and safe → despawn and drop;
otherwise (token not safe, or lookup failed) → keep. -/
def retainClose (tokens : Entity → Option SurfaceToken) :
    List Entity → List Entity × List Entity
  | [] => ([], [])
  | e :: rest =>
      let r := retainClose tokens rest
      match tokens e with
      | some token =>
          if token.is_safe_to_close_window then (e :: r.1, r.2)
          else (r.1, e :: r.2)
      | none => (r.1, e :: r.2)

/-- `close_when_requested`, one tick: read all events, then run the retain
pass over the pending set; despawn commands accumulate across both phases. -/
def close_when_requested (tokens : Entity → Option SurfaceToken)
    (closed : List Entity) (waiting_to_close : List Entity) : CloseState :=
  let st := processEvents tokens { despawns := [], waiting := waiting_to_close } closed
  let r := retainClose tokens st.waiting
  { despawns := st.despawns ++ r.1, waiting := r.2 }

/-- Whether `tokens.get e` succeeds with a token reporting safe-to-close
(the despawn condition in both phases of `close_when_requested`). -/
def isSafe (tokens : Entity → Option SurfaceToken) (e : Entity) : Bool :=
  match tokens e with
  | some t => t.is_safe_to_close_window
  | none => false

/-- Whether `tokens.get e` succeeds with a token reporting NOT safe
(the condition under which the event loop defers `e` into the pending set). -/
def deferredByToken (tokens : Entity → Option SurfaceToken) (e : Entity) : Bool :=
  match tokens e with
  | some t => !t.is_safe_to_close_window
  | none => false

/-- Pending set remaining after `n` ticks of `close_when_requested`, starting
from the empty `Local<HashSet>`; tick `k` reads events `events k` against
token state `tokens k`. -/
def waitingAfter (tokens : Nat → Entity → Option SurfaceToken)
    (events : Nat → List Entity) : Nat → List Entity
  | 0 => []
  | n + 1 =>
      (close_when_requested (tokens n) (events n) (waitingAfter tokens events n)).waiting

/-- Despawn commands issued by `close_when_requested` on tick `n` of the
multi-tick run. -/
def despawnsAt (tokens : Nat → Entity → Option SurfaceToken)
    (events : Nat → List Entity) (n : Nat) : List Entity :=
  (close_when_requested (tokens n) (events n) (waitingAfter tokens events n)).despawns

/-- The entity store as one tick's systems observe it. -/
structure World where
  alive : List Entity
  window : Entity → Option Window
  primary : Entity → Bool
  token : Entity → Option SurfaceToken

/-- Result of `Query<&Window>`: the alive entities carrying `Window`. -/
def windowEntities (w : World) : List Entity :=
  w.alive.filter (fun e => (w.window e).isSome)

/-- Result of `Query<(), (With<Window>, With<PrimaryWindow>)>`. -/
def primaryWindowEntities (w : World) : List Entity :=
  w.alive.filter (fun e => (w.window e).isSome && w.primary e)

/-- `exit_on_all_closed`: number of `AppExit` events sent this tick. -/
def exit_on_all_closed (w : World) : Nat :=
  if (windowEntities w).isEmpty then 1 else 0

/-- `exit_on_primary_closed`: number of `AppExit` events sent this tick. -/
def exit_on_primary_closed (w : World) : Nat :=
  if (primaryWindowEntities w).isEmpty then 1 else 0

/-- Applying a despawn command to the store. -/
def despawnEntity (w : World) (e : Entity) : World :=
  { w with alive := w.alive.filter (fun x => x ≠ e) }

/-- Key codes; only `Escape` is read by this core. -/
inductive KeyCode where
  | Escape
  | Other (code : Nat)
deriving DecidableEq, Repr

/-- The `Res<Input<KeyCode>>` keyboard state: which keys are "just pressed"
this tick (edge-triggered). -/
structure Input where
  justPressedKeys : KeyCode → Bool

/-- `Input::just_pressed`. -/
def Input.just_pressed (input : Input) (k : KeyCode) : Bool :=
  input.justPressedKeys k

/-- `close_on_esc`: for each `(Entity, &Window)`, skip unfocused windows,
then despawn if Escape was just pressed.  Returns the despawn commands. -/
def close_on_esc (input : Input) (focused_windows : List (Entity × Window)) :
    List Entity :=
  focused_windows.foldl
    (fun despawns wf =>
      if !wf.2.focused then
        despawns
      else if input.just_pressed KeyCode.Escape then
        despawns ++ [wf.1]
      else
        despawns)
    []

/-- Despawn commands accumulated by running `close_on_esc` once per tick over
a sequence of input states, with a fixed window query result. -/
def escDespawnsAcross (inputs : List Input) (fw : List (Entity × Window)) :
    List Entity :=
  inputs.foldl (fun acc i => acc ++ close_on_esc i fw) []

/-- `fixup_window_surface`: the query
`Query<Entity, (With<Window>, Without<SurfaceToken>)>`; each matched entity
receives an `insert(SurfaceToken::default())` command. -/
def fixup_window_surface (w : World) : List Entity :=
  w.alive.filter (fun e => (w.window e).isSome && (w.token e).isNone)

/-- Applying the queued token-insert commands to the store. -/
def applyTokenInserts (w : World) (es : List Entity) : World :=
  { w with
    token := fun e => if e ∈ es then some SurfaceToken.mkDefault else w.token e }

/-- A store with two windows, entity 0 being the primary (used for the
independence of the two exit policies). -/
def twoWindowWorld : World :=
  { alive := [0, 1]
    window := fun _ => some { focused := true }
    primary := fun e => e == 0
    token := fun _ => none }

/-- A store with no entities at all. -/
def emptyWorld : World :=
  { alive := []
    window := fun _ => none
    primary := fun _ => false
    token := fun _ => none }

/-- Input state where Escape was just pressed this tick. -/
def escJustPressedInput : Input :=
  { justPressedKeys := fun k => k == KeyCode.Escape }

/-- Input state where Escape is held but was not just pressed this tick. -/
def escHeldInput : Input :=
  { justPressedKeys := fun _ => false }

/-! ### Helper lemmas -/

theorem hsInsert_mem (s : List Entity) (e x : Entity) :
    x ∈ hsInsert s e ↔ x ∈ s ∨ x = e := by
  unfold hsInsert
  by_cases h : e ∈ s
  · simp only [if_pos h]
    constructor
    · exact fun hx => Or.inl hx
    · rintro (hx | rfl)
      · exact hx
      · exact h
  · simp [if_neg h, List.mem_append]

theorem hsInsert_nodup (s : List Entity) (e : Entity) (h : s.Nodup) :
    (hsInsert s e).Nodup := by
  unfold hsInsert
  by_cases he : e ∈ s
  · simpa [if_pos he]
  · rw [if_neg he, List.nodup_append]
    refine ⟨h, List.nodup_singleton e, ?_⟩
    intro a ha hb
    rw [List.mem_singleton] at hb
    subst hb
    exact he ha

theorem hsInsert_count (s : List Entity) (e x : Entity) :
    (hsInsert s e).count x =
      if x = e ∧ e ∉ s then s.count x + 1 else s.count x := by
  unfold hsInsert
  by_cases he : e ∈ s
  · simp [if_pos he, he]
  · by_cases hx : x = e
    · subst hx
      simp [if_neg he, he, List.count_append]
    · simp [if_neg he, List.count_append, hx, List.count_singleton']

theorem isSafe_not_deferred (tokens : Entity → Option SurfaceToken) (e : Entity)
    (h : isSafe tokens e = true) : deferredByToken tokens e = false := by
  cases ht : tokens e with
  | none => simp [isSafe, ht] at h
  | some t =>
      simp [isSafe, ht] at h
      simp [deferredByToken, ht, h]

theorem processEvent_despawns (tokens : Entity → Option SurfaceToken)
    (st : CloseState) (ev : Entity) :
    (processEvent tokens st ev).despawns =
      st.despawns ++ (if isSafe tokens ev = true then [ev] else []) := by
  unfold processEvent isSafe
  cases tokens ev with
  | none => simp
  | some t => cases h : t.is_safe_to_close_window <;> simp [h]

theorem processEvent_waiting (tokens : Entity → Option SurfaceToken)
    (st : CloseState) (ev : Entity) :
    (processEvent tokens st ev).waiting =
      if deferredByToken tokens ev = true then hsInsert st.waiting ev
      else st.waiting := by
  unfold processEvent deferredByToken
  cases tokens ev with
  | none => simp
  | some t => cases h : t.is_safe_to_close_window <;> simp [h]

theorem processEvents_despawns (tokens : Entity → Option SurfaceToken)
    (events : List Entity) :
    ∀ st : CloseState,
      (processEvents tokens st events).despawns =
        st.despawns ++ events.filter (fun e => isSafe tokens e) := by
  induction events with
  | nil => intro st; simp [processEvents]
  | cons ev evs ih =>
      intro st
      show (processEvents tokens (processEvent tokens st ev) evs).despawns = _
      rw [ih, processEvent_despawns, List.filter_cons]
      by_cases h : isSafe tokens ev = true <;> simp [h]

theorem processEvents_waiting_mem (tokens : Entity → Option SurfaceToken)
    (events : List Entity) :
    ∀ st : CloseState, ∀ x : Entity,
      (x ∈ (processEvents tokens st events).waiting ↔
        x ∈ st.waiting ∨ (x ∈ events ∧ deferredByToken tokens x = true)) := by
  induction events with
  | nil => intro st x; simp [processEvents]
  | cons ev evs ih =>
      intro st x
      show x ∈ (processEvents tokens (processEvent tokens st ev) evs).waiting ↔ _
      rw [ih, processEvent_waiting]
      by_cases h : deferredByToken tokens ev = true
      · simp only [if_pos h, hsInsert_mem, List.mem_cons]
        constructor
        · rintro ((hx | rfl) | hx)
          · exact Or.inl hx
          · exact Or.inr ⟨Or.inl rfl, h⟩
          · exact Or.inr ⟨Or.inr hx.1, hx.2⟩
        · rintro (hx | ⟨(rfl | hx), hd⟩)
          · exact Or.inl (Or.inl hx)
          · exact Or.inl (Or.inr rfl)
          · exact Or.inr ⟨hx, hd⟩
      · simp only [if_neg h, List.mem_cons]
        constructor
        · rintro (hx | hx)
          · exact Or.inl hx
          · exact Or.inr ⟨Or.inr hx.1, hx.2⟩
        · rintro (hx | ⟨(rfl | hx), hd⟩)
          · exact Or.inl hx
          · exact absurd hd h
          · exact Or.inr ⟨hx, hd⟩

theorem processEvents_waiting_nodup (tokens : Entity → Option SurfaceToken)
    (events : List Entity) :
    ∀ st : CloseState, st.waiting.Nodup →
      (processEvents tokens st events).waiting.Nodup := by
  induction events with
  | nil => intro st h; simpa [processEvents]
  | cons ev evs ih =>
      intro st h
      show (processEvents tokens (processEvent tokens st ev) evs).waiting.Nodup
      apply ih
      rw [processEvent_waiting]
      by_cases hd : deferredByToken tokens ev = true
      · simpa [if_pos hd] using hsInsert_nodup st.waiting ev h
      · simpa [if_neg hd]

theorem processEvent_waiting_count_of_not_deferred
    (tokens : Entity → Option SurfaceToken) (st : CloseState) (ev e : Entity)
    (h : deferredByToken tokens e = false) :
    (processEvent tokens st ev).waiting.count e = st.waiting.count e := by
  rw [processEvent_waiting]
  by_cases hd : deferredByToken tokens ev = true
  · rw [if_pos hd, hsInsert_count]
    have hne : ¬(e = ev ∧ ev ∉ st.waiting) := by
      rintro ⟨rfl, -⟩
      rw [h] at hd
      exact Bool.false_ne_true hd
    rw [if_neg hne]
  · rw [if_neg hd]

theorem processEvents_waiting_count_of_not_deferred
    (tokens : Entity → Option SurfaceToken) (events : List Entity) (e : Entity)
    (h : deferredByToken tokens e = false) :
    ∀ st : CloseState,
      (processEvents tokens st events).waiting.count e = st.waiting.count e := by
  induction events with
  | nil => intro st; simp [processEvents]
  | cons ev evs ih =>
      intro st
      show (processEvents tokens (processEvent tokens st ev) evs).waiting.count e = _
      rw [ih, processEvent_waiting_count_of_not_deferred tokens st ev e h]

theorem retainClose_fst (tokens : Entity → Option SurfaceToken) :
    ∀ l : List Entity,
      (retainClose tokens l).1 = l.filter (fun e => isSafe tokens e) := by
  intro l
  induction l with
  | nil => rfl
  | cons e rest ih =>
      unfold retainClose isSafe
      rw [List.filter_cons]
      cases ht : tokens e with
      | none => simpa [ht, isSafe] using ih
      | some t =>
          cases hs : t.is_safe_to_close_window <;>
            simpa [ht, hs, isSafe] using ih

theorem retainClose_snd (tokens : Entity → Option SurfaceToken) :
    ∀ l : List Entity,
      (retainClose tokens l).2 = l.filter (fun e => !isSafe tokens e) := by
  intro l
  induction l with
  | nil => rfl
  | cons e rest ih =>
      unfold retainClose isSafe
      rw [List.filter_cons]
      cases ht : tokens e with
      | none => simpa [ht, isSafe] using ih
      | some t =>
          cases hs : t.is_safe_to_close_window <;>
            simpa [ht, hs, isSafe] using ih

theorem close_when_requested_despawns (tokens : Entity → Option SurfaceToken)
    (closed waiting_to_close : List Entity) :
    (close_when_requested tokens closed waiting_to_close).despawns =
      closed.filter (fun e => isSafe tokens e) ++
        (processEvents tokens { despawns := [], waiting := waiting_to_close }
            closed).waiting.filter (fun e => isSafe tokens e) := by
  have h1 : (close_when_requested tokens closed waiting_to_close).despawns =
      (processEvents tokens { despawns := [], waiting := waiting_to_close }
          closed).despawns ++
        (retainClose tokens
          (processEvents tokens { despawns := [], waiting := waiting_to_close }
            closed).waiting).1 := rfl
  rw [h1, retainClose_fst, processEvents_despawns]
  simp

theorem close_when_requested_waiting (tokens : Entity → Option SurfaceToken)
    (closed waiting_to_close : List Entity) :
    (close_when_requested tokens closed waiting_to_close).waiting =
      (processEvents tokens { despawns := [], waiting := waiting_to_close }
          closed).waiting.filter (fun e => !isSafe tokens e) := by
  have h1 : (close_when_requested tokens closed waiting_to_close).waiting =
      (retainClose tokens
        (processEvents tokens { despawns := [], waiting := waiting_to_close }
          closed).waiting).2 := rfl
  rw [h1, retainClose_snd]

theorem not_mem_despawns_of_not_safe (tokens : Entity → Option SurfaceToken)
    (closed waiting_to_close : List Entity) (e : Entity)
    (h : isSafe tokens e = false) :
    e ∉ (close_when_requested tokens closed waiting_to_close).despawns := by
  rw [close_when_requested_despawns]
  intro hmem
  rcases List.mem_append.mp hmem with hm | hm <;>
    exact absurd ((List.mem_filter.mp hm).2) (by simp [h])

theorem close_on_esc_foldl (input : Input) :
    ∀ (fw : List (Entity × Window)) (acc : List Entity),
      fw.foldl
        (fun despawns wf =>
          if !wf.2.focused then despawns
          else if input.just_pressed KeyCode.Escape then despawns ++ [wf.1]
          else despawns) acc =
      acc ++ (if input.just_pressed KeyCode.Escape = true
              then (fw.filter (fun wf => wf.2.focused)).map Prod.fst
              else []) := by
  intro fw
  induction fw with
  | nil => intro acc; simp
  | cons wf rest ih =>
      intro acc
      rw [List.foldl_cons, List.filter_cons]
      by_cases hf : wf.2.focused
      · by_cases hp : input.just_pressed KeyCode.Escape
        · rw [ih]; simp [hf, hp]
        · rw [ih]; simp [hf, hp]
      · rw [ih]
        simp [hf]

/-! ### Claim theorems -/

/-- Claim C1: for each close-request event read by `close_when_requested`,
exactly one of three cases applies: the target has no `SurfaceToken` and the
event is dropped with no effect (no despawn command, pending set unchanged);
the token reports safe and the entity is despawned immediately without being
added to the pending set; or the token reports not-safe and the entity is
inserted into the pending set with no despawn issued. -/
theorem close_request_event_cases (tokens : Entity → Option SurfaceToken)
    (st : CloseState) (ev : Entity) :
    (tokens ev = none ∧ processEvent tokens st ev = st) ∨
    (∃ t, tokens ev = some t ∧ t.is_safe_to_close_window = true ∧
      (processEvent tokens st ev).despawns = st.despawns ++ [ev] ∧
      (processEvent tokens st ev).waiting = st.waiting) ∨
    (∃ t, tokens ev = some t ∧ t.is_safe_to_close_window = false ∧
      (processEvent tokens st ev).despawns = st.despawns ∧
      ev ∈ (processEvent tokens st ev).waiting ∧
      (∀ x, x ∈ (processEvent tokens st ev).waiting ↔
        x ∈ st.waiting ∨ x = ev)) := by
  cases ht : tokens ev with
  | none =>
      left
      exact ⟨rfl, by simp [processEvent, ht]⟩
  | some t =>
      cases hs : t.is_safe_to_close_window with
      | true =>
          right; left
          exact ⟨t, rfl, hs, by simp [processEvent, ht, hs],
            by simp [processEvent, ht, hs]⟩
      | false =>
          right; right
          refine ⟨t, rfl, hs, by simp [processEvent, ht, hs], ?_, ?_⟩
          · simp [processEvent, ht, hs, hsInsert_mem]
          · intro x
            simp [processEvent, ht, hs, hsInsert_mem]

/-- Claim C2: the pending retrier is exactly the retain/remove split: the
despawned entities are precisely the pending ones whose token lookup succeeds
with a safe report, and the retained entities are precisely the pending ones
whose lookup fails or whose token reports not-safe. -/
theorem pending_retrier_retain_split (tokens : Entity → Option SurfaceToken)
    (waiting : List Entity) :
    (retainClose tokens waiting).1 =
      waiting.filter (fun e => isSafe tokens e) ∧
    (retainClose tokens waiting).2 =
      waiting.filter (fun e => !isSafe tokens e) ∧
    (∀ e, e ∈ (retainClose tokens waiting).1 ↔
      e ∈ waiting ∧ isSafe tokens e = true) ∧
    (∀ e, e ∈ (retainClose tokens waiting).2 ↔
      e ∈ waiting ∧ isSafe tokens e = false) ∧
    (∀ e, isSafe tokens e = false ↔
      (tokens e = none ∨
        ∃ t, tokens e = some t ∧ t.is_safe_to_close_window = false)) := by
  refine ⟨retainClose_fst tokens waiting, retainClose_snd tokens waiting,
    ?_, ?_, ?_⟩
  · intro e
    rw [retainClose_fst, List.mem_filter]
  · intro e
    rw [retainClose_snd, List.mem_filter]
    simp [Bool.not_eq_true']
  · intro e
    cases ht : tokens e with
    | none => simp [isSafe, ht]
    | some t =>
        simp only [isSafe, ht]
        constructor
        · intro h
          exact Or.inr ⟨t, rfl, h⟩
        · rintro (h | ⟨t', ht', hs'⟩)
          · exact absurd h (by simp)
          · rw [Option.some.injEq] at ht'
            rw [ht']
            exact hs'

/-- Claim C3 counterexample: entity 5 is already in the pending set, a
close-request event for it arrives while its token reports safe; the tick
issues TWO despawn commands for entity 5 (one from the event loop, one from
the retain pass), so the coordinator does release an entity more than once. -/
theorem double_release_on_pending_event :
    ((close_when_requested (fun _ => some { safe_to_close := true })
        [5] [5]).despawns.count 5) = 2 := by
  decide

/-- Claim C3 (amended): within one tick, `close_when_requested` despawns an
entity at most once, provided at most one close-request event targets it this
tick and it is not simultaneously targeted by an event and already in the
pending set. -/
theorem no_double_release_amended (tokens : Entity → Option SurfaceToken)
    (closed waiting_to_close : List Entity) (e : Entity)
    (hnodup : waiting_to_close.Nodup)
    (hev : closed.count e ≤ 1)
    (hdisj : ¬(e ∈ closed ∧ e ∈ waiting_to_close)) :
    (close_when_requested tokens closed waiting_to_close).despawns.count e ≤ 1 := by
  rw [close_when_requested_despawns, List.count_append]
  by_cases hsafe : isSafe tokens e = true
  · have hd : deferredByToken tokens e = false := isSafe_not_deferred tokens e hsafe
    have h1 : (closed.filter (fun x => isSafe tokens x)).count e = closed.count e :=
      List.count_filter (by simpa using hsafe)
    have h2 : ((processEvents tokens { despawns := [], waiting := waiting_to_close }
          closed).waiting.filter (fun x => isSafe tokens x)).count e =
        (processEvents tokens { despawns := [], waiting := waiting_to_close }
          closed).waiting.count e :=
      List.count_filter (by simpa using hsafe)
    have h3 : (processEvents tokens { despawns := [], waiting := waiting_to_close }
          closed).waiting.count e = waiting_to_close.count e :=
      processEvents_waiting_count_of_not_deferred tokens closed e hd
        { despawns := [], waiting := waiting_to_close }
    rw [h1, h2, h3]
    by_cases hin : e ∈ closed
    · have hnotw : e ∉ waiting_to_close := fun hw => hdisj ⟨hin, hw⟩
      rw [List.count_eq_zero_of_not_mem hnotw]
      omega
    · rw [List.count_eq_zero_of_not_mem hin]
      by_cases hw : e ∈ waiting_to_close
      · rw [List.count_eq_one_of_mem hnodup hw]
      · rw [List.count_eq_zero_of_not_mem hw]
        omega
  · have hne1 : e ∉ closed.filter (fun x => isSafe tokens x) := by
      intro hmem
      exact hsafe (List.mem_filter.mp hmem).2
    have hne2 : e ∉ (processEvents tokens
        { despawns := [], waiting := waiting_to_close }
          closed).waiting.filter (fun x => isSafe tokens x) := by
      intro hmem
      exact hsafe (List.mem_filter.mp hmem).2
    rw [List.count_eq_zero_of_not_mem hne1, List.count_eq_zero_of_not_mem hne2]
    omega

/-- Witness for the amended claim C3 at a concrete input: a single event for
entity 3, empty pending set, token safe: at most one despawn is issued. -/
theorem no_double_release_amended_witness :
    (close_when_requested (fun _ => some { safe_to_close := true })
        [3] []).despawns.count 3 ≤ 1 :=
  no_double_release_amended (fun _ => some { safe_to_close := true }) [3] [] 3
    List.nodup_nil (by decide) (by decide)

/-- Claim C10: every entity remaining in the pending set at the end of a
`close_when_requested` invocation either had no token or a token that
reported not-safe when checked during the invocation; no entity whose token
was found safe remains. -/
theorem waiting_set_invariant (tokens : Entity → Option SurfaceToken)
    (closed waiting_to_close : List Entity) (e : Entity)
    (h : e ∈ (close_when_requested tokens closed waiting_to_close).waiting) :
    tokens e = none ∨
      ∃ t, tokens e = some t ∧ t.is_safe_to_close_window = false := by
  rw [close_when_requested_waiting] at h
  have hs : isSafe tokens e = false := by
    have := (List.mem_filter.mp h).2
    simpa [Bool.not_eq_true'] using this
  cases ht : tokens e with
  | none => exact Or.inl rfl
  | some t =>
      refine Or.inr ⟨t, rfl, ?_⟩
      simpa [isSafe, ht] using hs

/-- Witness for claim C10: entity 7 stays pending (its token is not safe),
and indeed its token reports not-safe. -/
theorem waiting_set_invariant_witness :
    (fun _ : Entity => some { safe_to_close := false : SurfaceToken }) 7 = none ∨
      ∃ t, (fun _ : Entity => some { safe_to_close := false : SurfaceToken }) 7 =
          some t ∧ t.is_safe_to_close_window = false :=
  waiting_set_invariant (fun _ => some { safe_to_close := false }) [] [7] 7
    (by decide)

/-- Claim C4: a window entity whose token reports not-safe at every query is
never despawned by `close_when_requested`, across arbitrarily many ticks and
arbitrarily many close-request events targeting it. -/
theorem never_despawned_when_never_safe
    (tokens : Nat → Entity → Option SurfaceToken) (events : Nat → List Entity)
    (e : Entity)
    (h : ∀ n, ∃ t, tokens n e = some t ∧ t.is_safe_to_close_window = false) :
    ∀ n, e ∉ despawnsAt tokens events n := by
  intro n
  obtain ⟨t, ht, hs⟩ := h n
  have hns : isSafe (tokens n) e = false := by simp [isSafe, ht, hs]
  exact not_mem_despawns_of_not_safe (tokens n) (events n)
    (waitingAfter tokens events n) e hns

/-- Witness for claim C4: with a token that always reports not-safe and a
close request every tick, entity 5 is not despawned on tick 3. -/
theorem never_despawned_when_never_safe_witness :
    5 ∉ despawnsAt (fun _ _ => some { safe_to_close := false })
        (fun _ => [5]) 3 :=
  never_despawned_when_never_safe
    (fun _ _ => some { safe_to_close := false }) (fun _ => [5]) 5
    (fun _ => ⟨{ safe_to_close := false }, rfl, rfl⟩) 3

/-- Claim C5: `exit_on_all_closed` emits exactly one exit signal iff zero
alive entities carry `Window` (and none otherwise); `exit_on_primary_closed`
emits exactly one iff zero alive entities carry both `Window` and the primary
marker; the policies are independent: despawning only the primary of two
windows emits the primary-closed signal and not the all-closed one. -/
theorem exit_policies_iff_empty (w : World) :
    (exit_on_all_closed w = 1 ↔ ∀ e ∈ w.alive, w.window e = none) ∧
    (exit_on_all_closed w = 0 ↔ ∃ e ∈ w.alive, (w.window e).isSome = true) ∧
    (exit_on_primary_closed w = 1 ↔
      ∀ e ∈ w.alive, ¬((w.window e).isSome = true ∧ w.primary e = true)) ∧
    (exit_on_primary_closed w = 0 ↔
      ∃ e ∈ w.alive, (w.window e).isSome = true ∧ w.primary e = true) ∧
    exit_on_primary_closed (despawnEntity twoWindowWorld 0) = 1 ∧
    exit_on_all_closed (despawnEntity twoWindowWorld 0) = 0 := by
  have hall : (windowEntities w).isEmpty = true ↔
      ∀ e ∈ w.alive, w.window e = none := by
    rw [List.isEmpty_iff, windowEntities, List.filter_eq_nil_iff]
    constructor
    · intro h e he
      have := h e he
      simpa [Option.not_isSome_iff_eq_none] using this
    · intro h e he
      simp [h e he]
  have hpri : (primaryWindowEntities w).isEmpty = true ↔
      ∀ e ∈ w.alive, ¬((w.window e).isSome = true ∧ w.primary e = true) := by
    rw [List.isEmpty_iff, primaryWindowEntities, List.filter_eq_nil_iff]
    constructor
    · intro h e he
      have := h e he
      simpa [Bool.and_eq_true] using this
    · intro h e he
      simpa [Bool.and_eq_true] using h e he
  refine ⟨?_, ?_, ?_, ?_, by decide, by decide⟩
  · rw [exit_on_all_closed]
    by_cases hemp : (windowEntities w).isEmpty
    · rw [if_pos hemp]
      exact iff_of_true rfl (hall.mp hemp)
    · simp only [if_neg hemp]
      constructor
      · omega
      · intro hforall
        exact absurd (hall.mpr hforall) hemp
  · rw [exit_on_all_closed]
    by_cases hemp : (windowEntities w).isEmpty
    · simp only [if_pos hemp]
      constructor
      · omega
      · rintro ⟨e, he, hsome⟩
        have := hall.mp hemp e he
        rw [this] at hsome
        exact absurd hsome (by simp)
    · simp only [if_neg hemp, true_iff]
      by_contra hnone
      push_neg at hnone
      apply hemp
      apply hall.mpr
      intro e he
      have := hnone e he
      cases hwe : w.window e with
      | none => rfl
      | some win => exact absurd (by simp [hwe]) this
  · rw [exit_on_primary_closed]
    by_cases hemp : (primaryWindowEntities w).isEmpty
    · rw [if_pos hemp]
      exact iff_of_true rfl (hpri.mp hemp)
    · simp only [if_neg hemp]
      constructor
      · omega
      · intro hforall
        exact absurd (hpri.mpr hforall) hemp
  · rw [exit_on_primary_closed]
    by_cases hemp : (primaryWindowEntities w).isEmpty
    · simp only [if_pos hemp]
      constructor
      · omega
      · rintro ⟨e, he, hsome, hprim⟩
        exact absurd ⟨hsome, hprim⟩ (hpri.mp hemp e he)
    · simp only [if_neg hemp, true_iff]
      by_contra hnone
      push_neg at hnone
      apply hemp
      apply hpri.mpr
      intro e he
      rintro ⟨hsome, hprim⟩
      exact (hnone e he hsome) hprim

/-- Witness for claim C5: the empty store makes the all-closed policy emit
exactly one exit signal. -/
theorem exit_policies_iff_empty_witness :
    exit_on_all_closed emptyWorld = 1 :=
  (exit_policies_iff_empty emptyWorld).1.mpr (by decide)

/-- Claim C6 counterexample: the exit evaluators are stateless, so when the
condition persists across two consecutive ticks (no windows on either tick),
each policy emits the exit signal on BOTH ticks — it re-emits even though the
condition did not newly hold on the second tick. -/
theorem exit_reemission_counterexample :
    [emptyWorld, emptyWorld].map exit_on_all_closed = [1, 1] ∧
    [emptyWorld, emptyWorld].map exit_on_primary_closed = [1, 1] := by
  constructor <;> rfl

/-- Claim C6 (amended): the exit evaluators are level-triggered, not
edge-triggered: on every tick whose condition holds they emit the signal,
including consecutive ticks where the condition merely persists. -/
theorem exit_policies_level_triggered (w w' : World)
    (h1 : windowEntities w = []) (h2 : windowEntities w' = [])
    (h3 : primaryWindowEntities w = []) (h4 : primaryWindowEntities w' = []) :
    [w, w'].map exit_on_all_closed = [1, 1] ∧
    [w, w'].map exit_on_primary_closed = [1, 1] := by
  simp [exit_on_all_closed, exit_on_primary_closed, h1, h2, h3, h4]

/-- Witness for the amended claim C6: two consecutive empty-store ticks both
emit both signals. -/
theorem exit_policies_level_triggered_witness :
    [emptyWorld, emptyWorld].map exit_on_all_closed = [1, 1] ∧
    [emptyWorld, emptyWorld].map exit_on_primary_closed = [1, 1] :=
  exit_policies_level_triggered emptyWorld emptyWorld rfl rfl rfl rfl

/-- Claim C7: pending-set insertion is idempotent: if entity `e`'s token
reports not-safe, then after a tick in which `e` is close-requested (any
number of times — `closed` may repeat it) or was already pending, the pending
set holds exactly one entry for `e`, and stays duplicate-free. -/
theorem pending_insert_idempotent (tokens : Entity → Option SurfaceToken)
    (closed waiting_to_close : List Entity) (e : Entity) (t : SurfaceToken)
    (ht : tokens e = some t) (hs : t.is_safe_to_close_window = false)
    (hnodup : waiting_to_close.Nodup)
    (hreq : e ∈ closed ∨ e ∈ waiting_to_close) :
    (close_when_requested tokens closed waiting_to_close).waiting.count e = 1 ∧
    (close_when_requested tokens closed waiting_to_close).waiting.Nodup := by
  have hdef : deferredByToken tokens e = true := by
    simp [deferredByToken, ht, hs]
  have hnot : isSafe tokens e = false := by
    simp [isSafe, ht, hs]
  have hmem : e ∈ (processEvents tokens
      { despawns := [], waiting := waiting_to_close } closed).waiting := by
    rw [processEvents_waiting_mem]
    rcases hreq with hc | hw
    · exact Or.inr ⟨hc, hdef⟩
    · exact Or.inl hw
  have hnd : (processEvents tokens
      { despawns := [], waiting := waiting_to_close } closed).waiting.Nodup :=
    processEvents_waiting_nodup tokens closed
      { despawns := [], waiting := waiting_to_close } hnodup
  rw [close_when_requested_waiting]
  constructor
  · rw [List.count_filter (by simp [hnot])]
    exact List.count_eq_one_of_mem hnd hmem
  · exact hnd.filter _

/-- Witness for claim C7: three close requests for entity 4 in one tick with
a not-safe token leave exactly one pending entry for it. -/
theorem pending_insert_idempotent_witness :
    (close_when_requested (fun _ => some { safe_to_close := false })
        [4, 4, 4] []).waiting.count 4 = 1 ∧
    (close_when_requested (fun _ => some { safe_to_close := false })
        [4, 4, 4] []).waiting.Nodup :=
  pending_insert_idempotent (fun _ => some { safe_to_close := false })
    [4, 4, 4] [] 4 { safe_to_close := false } rfl rfl List.nodup_nil
    (Or.inl (by decide))

/-- Claim C8: `close_on_esc` despawns exactly the `Window` entities with
`focused = true`, and only on a tick where Escape is reported just-pressed
(edge-triggered); holding the key for three ticks with only the first marked
just-pressed despawns the focused window once, not three times, and an
unfocused window is never despawned. -/
theorem close_on_esc_spec (input : Input) (fw : List (Entity × Window)) :
    close_on_esc input fw =
      (if input.just_pressed KeyCode.Escape = true
       then (fw.filter (fun wf => wf.2.focused)).map Prod.fst
       else []) ∧
    (∀ e, e ∈ close_on_esc input fw ↔
      (input.just_pressed KeyCode.Escape = true ∧
        ∃ f : Window, (e, f) ∈ fw ∧ f.focused = true)) ∧
    (escDespawnsAcross [escJustPressedInput, escHeldInput, escHeldInput]
        [(0, { focused := true })]).count 0 = 1 ∧
    escDespawnsAcross [escJustPressedInput, escHeldInput, escHeldInput]
        [(0, { focused := false }), (1, { focused := true })] = [1] := by
  have hmain : close_on_esc input fw =
      (if input.just_pressed KeyCode.Escape = true
       then (fw.filter (fun wf => wf.2.focused)).map Prod.fst
       else []) := by
    rw [close_on_esc, close_on_esc_foldl input fw []]
    simp
  refine ⟨hmain, ?_, by decide, by decide⟩
  intro e
  rw [hmain]
  by_cases hp : input.just_pressed KeyCode.Escape
  · rw [if_pos hp]
    constructor
    · intro hmem
      rw [List.mem_map] at hmem
      obtain ⟨⟨e', f⟩, hmem', heq⟩ := hmem
      cases heq
      rw [List.mem_filter] at hmem'
      exact ⟨hp, f, hmem'.1, hmem'.2⟩
    · rintro ⟨-, f, hmem', hf⟩
      rw [List.mem_map]
      exact ⟨(e, f), List.mem_filter.mpr ⟨hmem', hf⟩, rfl⟩
  · simp [hp]

/-- Witness for claim C8: with Escape just pressed, the focused window 0 is
despawned. -/
theorem close_on_esc_spec_witness :
    0 ∈ close_on_esc escJustPressedInput [(0, { focused := true })] :=
  ((close_on_esc_spec escJustPressedInput [(0, { focused := true })]).2.1 0).mpr
    ⟨rfl, { focused := true }, by decide, rfl⟩

/-- Claim C9: the token provisioner attaches a default token to every alive
`Window` entity lacking one, leaves entities that already carry a token
untouched, and is a no-op (empty command list, store unchanged) exactly when
no alive `Window` entity lacks a token. -/
theorem token_provisioner_spec (w : World) :
    (∀ e, e ∈ w.alive → (w.window e).isSome = true → w.token e = none →
      (applyTokenInserts w (fixup_window_surface w)).token e =
        some SurfaceToken.mkDefault) ∧
    (∀ e t, w.token e = some t →
      (applyTokenInserts w (fixup_window_surface w)).token e = some t) ∧
    (∀ e, e ∈ w.alive → (w.window e).isSome = true →
      ((applyTokenInserts w (fixup_window_surface w)).token e).isSome = true) ∧
    (fixup_window_surface w = [] ↔
      ∀ e ∈ w.alive, (w.window e).isSome = true →
        (w.token e).isSome = true) ∧
    (fixup_window_surface w = [] →
      applyTokenInserts w (fixup_window_surface w) = w) := by
  have hmem : ∀ e, e ∈ fixup_window_surface w ↔
      e ∈ w.alive ∧ (w.window e).isSome = true ∧ (w.token e).isNone = true := by
    intro e
    rw [fixup_window_surface, List.mem_filter, Bool.and_eq_true]
  have hins : ∀ e t, w.token e = some t →
      (applyTokenInserts w (fixup_window_surface w)).token e = some t := by
    intro e t ht
    show (if e ∈ fixup_window_surface w then some SurfaceToken.mkDefault
      else w.token e) = some t
    rw [if_neg, ht]
    intro hmem'
    have := ((hmem e).mp hmem').2.2
    rw [ht] at this
    exact absurd this (by simp)
  have hnew : ∀ e, e ∈ w.alive → (w.window e).isSome = true → w.token e = none →
      (applyTokenInserts w (fixup_window_surface w)).token e =
        some SurfaceToken.mkDefault := by
    intro e he hw ht
    show (if e ∈ fixup_window_surface w then some SurfaceToken.mkDefault
      else w.token e) = some SurfaceToken.mkDefault
    rw [if_pos]
    exact (hmem e).mpr ⟨he, hw, by simp [ht]⟩
  refine ⟨hnew, hins, ?_, ?_, ?_⟩
  · intro e he hw
    cases ht : w.token e with
    | none => rw [hnew e he hw ht]; rfl
    | some t => rw [hins e t ht]; rfl
  · rw [fixup_window_surface, List.filter_eq_nil_iff]
    constructor
    · intro h e he hw
      have := h e he
      rw [Bool.and_eq_true] at this
      push_neg at this
      have hn := this hw
      cases htk : w.token e with
      | none =>
          rw [htk] at hn
          simp at hn
      | some t => rfl
    · intro h e he
      rw [Bool.and_eq_true]
      rintro ⟨hw, hn⟩
      have := h e he hw
      rw [Option.isNone_iff_eq_none] at hn
      rw [hn] at this
      exact absurd this (by simp)
  · intro h
    rw [h]
    cases w with
    | mk alive window primary token =>
        rw [applyTokenInserts]
        simp only [World.mk.injEq, true_and]
        funext e
        simp

/-- Witness for claim C9: in the two-window store (no tokens yet), the
provisioner attaches the default token to entity 0. -/
theorem token_provisioner_spec_witness :
    (applyTokenInserts twoWindowWorld
        (fixup_window_surface twoWindowWorld)).token 0 =
      some SurfaceToken.mkDefault :=
  (token_provisioner_spec twoWindowWorld).1 0 (by decide) rfl rfl

end BevyWindow
